import Mathlib

/-!
Shallow embedding of the copyr.ai backend core (copyright calculator,
cache-manager dedup similarity, metadata normalizer, Library of Congress
relevance scorer, batch analyzer) together with theorems settling the
frozen claims about it.

Conventions of the embedding:
* Python `Optional[int]` becomes `Option Int`; Python truthiness of an
  optional int (`if x:`) is `optTruthy` (false on `None` and on `0`).
* Python `float` arithmetic is idealised as exact rational arithmetic `ℚ`.
* Python strings become Lean `String`; the regex operations used by the
  code (`re.sub` with the classes `[^\w\s]` and `\s+`, `str.split`,
  `str.strip`, `str.lower`, substring membership `in`) are implemented
  structurally over `List Char` so that they evaluate by `rfl`/`decide`.
  `\w` is a word character (alphanumeric or underscore), `\s` whitespace.
-/

/-- Python truthiness of an `Optional[int]`: `None` and `0` are falsy. -/
def optTruthy : Option Int → Bool
  | none => false
  | some v => v != 0

/-- Whitespace test used by `\s`, `str.split()` and `str.strip()`. -/
def isSpaceCh (c : Char) : Bool := c.isWhitespace

/-- Word-character test used by the regex class `\w`. -/
def isWordCh (c : Char) : Bool := c.isAlphanum || c = '_'

/-- Helper of `pyWords`: split a character list into maximal runs of
non-whitespace characters (accumulator holds the current run reversed). -/
def chunksAux : List Char → List Char → List (List Char)
  | acc, [] => if acc.isEmpty then [] else [acc.reverse]
  | acc, c :: cs =>
    if isSpaceCh c then
      if acc.isEmpty then chunksAux [] cs else acc.reverse :: chunksAux [] cs
    else chunksAux (c :: acc) cs

/-- Python `s.split()`: whitespace-separated words, empties dropped. -/
def pyWords (s : String) : List String := (chunksAux [] s.data).map String.mk

/-- Python `s.lower()` (ASCII). -/
def pyLower (s : String) : String := String.mk (s.data.map Char.toLower)

/-- Python `re.sub` deleting the class `[^\w\s]`: drop every character
that is neither a word character nor whitespace. -/
def keepWordSpace (s : String) : String :=
  String.mk (s.data.filter (fun c => isWordCh c || isSpaceCh c))

/-- Python `re.sub(r'\s+', ' ', s).strip()`: collapse whitespace runs to
single spaces and trim the ends. -/
def collapseSpaces (s : String) : String := String.intercalate " " (pyWords s)

/-- Python `s.strip()`. -/
def pyStrip (s : String) : String :=
  String.mk (((s.data.dropWhile (fun c => isSpaceCh c)).reverse.dropWhile
    (fun c => isSpaceCh c)).reverse)

/-- Does `hay` start with `needle`? (helper of `strIn`). -/
def leadsWith : List Char → List Char → Bool
  | [], _ => true
  | _ :: _, [] => false
  | a :: as, b :: bs => a == b && leadsWith as bs

/-- Is `needle` a contiguous substring of `hay`? (helper of `strIn`). -/
def listContainsSub : List Char → List Char → Bool
  | needle, [] => leadsWith needle []
  | needle, h :: t => leadsWith needle (h :: t) || listContainsSub needle t

/-- Python substring membership `needle in hay`. -/
def strIn (needle hay : String) : Bool := listContainsSub needle.data hay.data

/-- Python `author.split(',')` helper (keeps empty pieces, like Python). -/
def splitCommaAux : List Char → List Char → List String
  | acc, [] => [String.mk acc.reverse]
  | acc, c :: cs =>
    if c = ',' then String.mk acc.reverse :: splitCommaAux [] cs
    else splitCommaAux (c :: acc) cs

/-- Python `s.split(',')`. -/
def splitOnComma (s : String) : List String := splitCommaAux [] s.data

/-!
## Copyright calculator
From `src/core/base_copyright_calculator.py` and
`src/countries/us/copyright_rules.py`.  `currentYear` stands for
`self.current_year` (`datetime.now().year`).
-/

/-- Embedding of `BaseCopyrightCalculator._validate_years`.  Returns `false` when a
publication year lies outside `[1400, current_year + 5]`, a death year lies
outside `[1400, current_year]`, or a death year precedes the publication
year by more than 100 years (the last check is skipped when the
publication year is falsy, as in the Python source). -/
def validateYears (currentYear : Int) (publicationYear authorDeathYear : Option Int) : Bool :=
  (match publicationYear with
   | none => true
   | some p => !(decide (p < 1400) || decide (p > currentYear + 5))) &&
  (match authorDeathYear with
   | none => true
   | some d =>
     !(decide (d < 1400) || decide (d > currentYear)) &&
     !(optTruthy publicationYear && decide (d < publicationYear.getD 0 - 100)))

/-- Embedding of `USCopyrightCalculator.calculate_copyright_status`.  Returns the triple
`(status, enters_public_domain_year, explanation)`.  The section signs of
the original explanation strings are rendered as the word `section`. -/
def calculateCopyrightStatus (currentYear : Int) (publicationYear authorDeathYear : Option Int)
    (workType : String) : String × Option Int × String :=
  if !(optTruthy publicationYear) then ("Unknown", none, "Publication year unknown")
  else
    let y := publicationYear.getD 0
    if y < 1923 then
      ("Public Domain", some 1923, "Published before 1923. In public domain since 1923.")
    else if 1923 ≤ y && y ≤ 1977 then
      if workType == "individual" then
        let pd := y + 95
        if currentYear ≥ pd then
          ("Public Domain", some pd, s!"Published {y}. 95-year term expired.")
        else
          ("Under Copyright", some pd,
            s!"Published {y}. Term is 95 years under section 304; PD Jan 1, {pd} per section 305.")
      else
        let pd := y + 95
        if currentYear ≥ pd then
          ("Public Domain", some pd, s!"Published {y}. 95-year term expired.")
        else
          ("Under Copyright", some pd,
            s!"Published {y} as {workType}. Term is 95 years; PD Jan 1, {pd}.")
    else if y ≥ 1978 then
      if workType == "individual" && optTruthy authorDeathYear then
        let d := authorDeathYear.getD 0
        let pd := d + 70
        if currentYear ≥ pd then
          ("Public Domain", some pd, s!"Author died {d}. Life + 70 years expired.")
        else
          ("Under Copyright", some pd,
            s!"Published {y} by individual author. Author died {d}. Term is life + 70 years; PD Jan 1, {pd}.")
      else if workType == "work_for_hire" || workType == "anonymous" || workType == "pseudonymous" then
        let pd := y + 95
        if currentYear ≥ pd then
          ("Public Domain", some pd, s!"Published {y}. 95-year term expired.")
        else
          ("Under Copyright", some pd,
            s!"Published {y} as {workType}. Term is 95 years from publication; PD Jan 1, {pd}.")
      else if workType == "individual" && !(optTruthy authorDeathYear) then
        let pd := y + 95
        ("Under Copyright", some pd,
          s!"Published {y} by individual author. Death year unknown; estimated PD {pd} (conservative).")
      else ("Unknown", none, "Cannot determine copyright status with available information")
    else ("Unknown", none, "Cannot determine copyright status with available information")

/-!
## Cache-manager dedup similarity
From `src/database/cache_manager.py`.
-/

/-- Embedding of `CacheManager._normalize_text`: lower-case, strip punctuation,
collapse whitespace, trim. -/
def normalizeText (s : String) : String := collapseSpaces (keepWordSpace (pyLower s))

/-- Jaccard-style ratio of two finite word sets (`len(w1 & w2) / len(w1 | w2)`). -/
def setRatio (w1 w2 : Finset String) : ℚ :=
  ((w1 ∩ w2).card : ℚ) / ((w1 ∪ w2).card : ℚ)

/-- Title part of `CacheManager._calculate_work_similarity` (weight 0.6). -/
def titleSim (title1 title2 : String) : ℚ :=
  let t1 := normalizeText title1
  let t2 := normalizeText title2
  if t1 ≠ "" ∧ t2 ≠ "" then
    if t1 = t2 then 6/10
    else if strIn t1 t2 || strIn t2 t1 then 4/10
    else
      let w1 := (pyWords t1).toFinset
      let w2 := (pyWords t2).toFinset
      if w1.Nonempty ∧ w2.Nonempty then (6/10) * setRatio w1 w2 else 0
  else 0

/-- Author part of `CacheManager._calculate_work_similarity` (weight 0.3). -/
def authorSim (author1 author2 : String) : ℚ :=
  let a1 := normalizeText author1
  let a2 := normalizeText author2
  if a1 ≠ "" ∧ a2 ≠ "" then
    if a1 = a2 then 3/10
    else if strIn a1 a2 || strIn a2 a1 then 2/10
    else 0
  else if a1 = "" ∧ a2 = "" then 15/100
  else 0

/-- Publication-year part of `CacheManager._calculate_work_similarity`
(weight 0.1); year truthiness follows Python (`0` counts as missing). -/
def yearSim (year1 year2 : Option Int) : ℚ :=
  if optTruthy year1 && optTruthy year2 then
    if year1.getD 0 = year2.getD 0 then 1/10
    else if (year1.getD 0 - year2.getD 0).natAbs ≤ 2 then 5/100
    else 0
  else if !(optTruthy year1) && !(optTruthy year2) then 5/100
  else 0

/-- Embedding of `CacheManager._calculate_work_similarity`: weighted sum of the three
parts, capped at 1. -/
def workSimilarity (title1 author1 : String) (year1 : Option Int)
    (title2 author2 : String) (year2 : Option Int) : ℚ :=
  min (titleSim title1 title2 + authorSim author1 author2 + yearSim year1 year2) 1

/-- A row of the `work_cache` pool, as consumed by `find_existing_work`. -/
structure CachedWork where
  title : String
  author : String
  pubYear : Option Int

/-- Similarity of a query work against a pool row. -/
def workSimW (w c : CachedWork) : ℚ :=
  workSimilarity w.title w.author w.pubYear c.title c.author c.pubYear

/-- The best-match loop of `CacheManager.find_existing_work`: keep the
candidate whenever its score beats the current best AND exceeds 0.7. -/
def bestLoop (w : CachedWork) : List CachedWork → Option CachedWork × ℚ → Option CachedWork × ℚ
  | [], acc => acc
  | c :: cs, acc =>
    if workSimW w c > acc.2 ∧ workSimW w c > 7/10 then bestLoop w cs (some c, workSimW w c)
    else bestLoop w cs acc

/-- Embedding of `CacheManager.find_existing_work` restricted to its pure core: scan the
candidate pool and return the best match, starting from no match and best
score 0. -/
def findExistingWork (w : CachedWork) (pool : List CachedWork) : Option CachedWork :=
  (bestLoop w pool (none, 0)).1

/-!
## Metadata normalizer
From `src/utils/metadata_normalizer.py`.
-/

/-- Per-source reliability weight of `create_work_record`
(weights: loc 0.4, hathitrust 0.3, musicbrainz 0.3; default `0.2` for
unknown sources). -/
def sourceWeight (source : String) : ℚ :=
  if source = "loc" then 4/10
  else if source = "hathitrust" then 3/10
  else if source = "musicbrainz" then 3/10
  else 2/10

/-- Confidence aggregation of `create_work_record`: weighted mean of the
per-source confidences; `0.0` when there are no sources. -/
def confidenceScore (confidenceSources : List (String × ℚ)) : ℚ :=
  if confidenceSources = [] then 0
  else
    let totalWeight := (confidenceSources.map (fun p => sourceWeight p.1)).sum
    let weightedConfidence := (confidenceSources.map (fun p => p.2 * sourceWeight p.1)).sum
    if totalWeight > 0 then weightedConfidence / totalWeight else 0

/-- One alternative of the year regex `\b(1[5-9]\d{2}|20[0-9]\d)\b`:
does the 4-character window match `1[5-9]\d\d` or `20[0-9]\d`? -/
def isYearTok (a b c d : Char) : Bool :=
  (a == '1' && decide ('5' ≤ b) && decide (b ≤ '9') && c.isDigit && d.isDigit) ||
  (a == '2' && b == '0' && c.isDigit && d.isDigit)

/-- Numeric value of a decimal digit character. -/
def digitVal (c : Char) : Nat := c.toNat - 48

/-- Integer value of the 4-character window (`int(match.group(1))`). -/
def tokVal (a b c d : Char) : Nat :=
  1000 * digitVal a + 100 * digitVal b + 10 * digitVal c + digitVal d

/-- Word-boundary test against the character preceding the window
(`none` = start of string). -/
def boundaryB : Option Char → Bool
  | none => true
  | some c => !isWordCh c

/-- Word-boundary test against the characters following the window. -/
def headBoundary : List Char → Bool
  | [] => true
  | c :: _ => !isWordCh c

/-- Left-to-right scan of `re.search` for the year regex: at each position
check the boundary before the window, the window itself, and the boundary
after it; `prev` is the character left of the current position. -/
def findYearAux : Option Char → List Char → Option Nat
  | prev, a :: b :: c :: d :: rest =>
    if boundaryB prev && isYearTok a b c d && headBoundary rest then some (tokVal a b c d)
    else findYearAux (some a) (b :: c :: d :: rest)
  | _, _ => none

/-- Embedding of `MetadataNormalizer.extract_publication_year`: `None` on the empty
(falsy) string, else the first word-bounded `1[5-9]\d{2}|20[0-9]\d` match. -/
def extractPublicationYear (dateString : String) : Option Nat :=
  if dateString = "" then none
  else findYearAux none dateString.data

/-- Declarative form of a regex window match at position `i`: the four
characters starting at `i` match the year pattern and the character after
them (if any) is not a word character. -/
def windowTok (l : List Char) (i : Nat) : Bool :=
  match l.drop i with
  | a :: b :: c :: d :: rest => isYearTok a b c d && headBoundary rest
  | _ => false

/-- Declarative form of the word boundary before position `i`: position 0
is bounded by `prev`; otherwise the character at `i - 1` must exist and not
be a word character. -/
def beforeBoundary (prev : Option Char) (l : List Char) (i : Nat) : Bool :=
  match i with
  | 0 => boundaryB prev
  | j + 1 =>
    match l[j]? with
    | some p => !isWordCh p
    | none => false

/-!
## Library of Congress relevance scorer
From `src/countries/us/api_clients/library_of_congress.py`.
-/

/-- Title cleaning of `_score_title_relevance`:
delete the class `[^\w\s]` by `re.sub`, then `strip` — note: no
lower-casing and no whitespace collapsing happen here. -/
def cleanTitleLoc (s : String) : String := pyStrip (keepWordSpace s)

/-- Word set of `_score_title_relevance`: whitespace tokens of the RAW
string that are longer than 2 characters. -/
def wordsLonger2 (s : String) : Finset String :=
  ((pyWords s).filter (fun w => w.length > 2)).toFinset

/-- Embedding of `LibraryOfCongressClient._score_title_relevance` (0-100). -/
def scoreTitleRelevance (target mtch : String) : ℚ :=
  if target = "" ∨ mtch = "" then 0
  else
    let cleanTarget := cleanTitleLoc target
    let cleanMatch := cleanTitleLoc mtch
    if cleanTarget = cleanMatch then 100
    else if strIn cleanTarget cleanMatch || strIn cleanMatch cleanTarget then
      let mn := min cleanTarget.length cleanMatch.length
      let mx := max cleanTarget.length cleanMatch.length
      let ratio := if mx > 0 then (mn : ℚ) / (mx : ℚ) else 0
      if ratio > 3/10 then 80 * ratio else 0
    else
      let targetWords := wordsLonger2 target
      let matchWords := wordsLonger2 mtch
      if targetWords.Nonempty ∧ matchWords.Nonempty then
        let total := (targetWords ∪ matchWords).card
        let overlapRatio :=
          if total > 0 then ((targetWords ∩ matchWords).card : ℚ) / (total : ℚ) else 0
        if overlapRatio > 3/10 then 60 * overlapRatio else 0
      else 0

/-- Per-author score of `_score_author_relevance` before the primary-author
bonus. -/
def authorScoreOne (target author : String) : ℚ :=
  if target = author then 100
  else if strIn target author || strIn author target then
    let mn := min target.length author.length
    let mx := max target.length author.length
    let ratio := if mx > 0 then (mn : ℚ) / (mx : ℚ) else 0
    if ratio > 4/10 then 70 * ratio else 0
  else if author.data.contains ',' then
    let parts := (splitOnComma author).map pyStrip
    if parts.length ≥ 2 then
      if strIn (parts.getD 0 "") target && strIn (parts.getD 1 "") target then 85
      else if strIn (parts.getD 0 "") target then 60
      else 0
    else 0
  else 0

/-- Embedding of `LibraryOfCongressClient._score_author_relevance` (0-100): generic
targets get a neutral 50; otherwise the best per-author score, where the
first-listed author receives a 1.1 bonus when it scored positively. -/
def scoreAuthorRelevance (target : String) (matchAuthors : List String) : ℚ :=
  if target = "" ∨ matchAuthors = [] then 0
  else if target ∈ (["unknown", "string", "author"] : List String) then 50
  else
    (matchAuthors.enum.map (fun p =>
      if p.1 = 0 ∧ authorScoreOne target p.2 > 0 then authorScoreOne target p.2 * (11/10)
      else authorScoreOne target p.2)).foldl max 0

/-- A Library of Congress candidate record, as consumed by
`_calculate_relevance_score`. -/
structure LocMatch where
  title : String
  authors : List String
  pubYear : Option Int

/-- The specific-author test of `_calculate_relevance_score`: non-empty,
not one of the generic placeholders, and longer than 2 characters. -/
def specificAuthor (targetAuthor : String) : Bool :=
  !(targetAuthor == "") &&
  !(["unknown", "string", "author"].contains targetAuthor) &&
  decide (targetAuthor.length > 2)

/-- Title sub-score as computed inside `_calculate_relevance_score` (the
candidate title is lower-cased and stripped first). -/
def titleSubScore (m : LocMatch) (targetTitle : String) : ℚ :=
  scoreTitleRelevance targetTitle (pyStrip (pyLower m.title))

/-- Author sub-score as computed inside `_calculate_relevance_score` (the
candidate authors are lower-cased and stripped first). -/
def authorSubScore (m : LocMatch) (targetAuthor : String) : ℚ :=
  scoreAuthorRelevance targetAuthor (m.authors.map (fun a => pyStrip (pyLower a)))

/-- Embedding of `LibraryOfCongressClient._calculate_relevance_score`: title sub-score
plus author sub-score plus a 5-point bonus for a truthy publication year,
gated by the minimum-relevance thresholds. -/
def calculateRelevanceScore (m : LocMatch) (targetTitle targetAuthor : String) : ℚ :=
  if specificAuthor targetAuthor then
    if titleSubScore m targetTitle < 20 ∧ authorSubScore m targetAuthor < 15 then 0
    else titleSubScore m targetTitle + authorSubScore m targetAuthor +
      (if optTruthy m.pubYear then 5 else 0)
  else
    if titleSubScore m targetTitle < 20 then 0
    else titleSubScore m targetTitle + authorSubScore m targetAuthor +
      (if optTruthy m.pubYear then 5 else 0)

/-- The title sub-score exactly as claim C6 words it: normalization
(strip punctuation, collapse whitespace, lower-case) applied to both
strings before EVERY comparison, including the word-overlap branch. -/
def scoreTitleClaim (target mtch : String) : ℚ :=
  let nt := normalizeText target
  let nm := normalizeText mtch
  if nt = nm then 100
  else if strIn nt nm || strIn nm nt then
    let ratio := (min nt.length nm.length : ℚ) / (max nt.length nm.length : ℚ)
    if ratio > 3/10 then 80 * ratio else 0
  else
    let tw := ((pyWords nt).filter (fun w => w.length > 2)).toFinset
    let mw := ((pyWords nm).filter (fun w => w.length > 2)).toFinset
    let ratio := setRatio tw mw
    if ratio > 3/10 then 60 * ratio else 0

/-- The amended description of the title sub-score: the exact and
containment comparisons use punctuation-stripped, end-trimmed (but not
lower-cased, not whitespace-collapsed) strings, while the word-overlap
branch tokenizes the raw input strings; empty input gives 0.  Divisions
are written without the explicit zero guards of the source (division by
zero is 0 in `ℚ`). -/
def scoreTitleAmended (target mtch : String) : ℚ :=
  if target = "" ∨ mtch = "" then 0
  else if cleanTitleLoc target = cleanTitleLoc mtch then 100
  else if strIn (cleanTitleLoc target) (cleanTitleLoc mtch) ||
          strIn (cleanTitleLoc mtch) (cleanTitleLoc target) then
    let ratio := (min (cleanTitleLoc target).length (cleanTitleLoc mtch).length : ℚ) /
      (max (cleanTitleLoc target).length (cleanTitleLoc mtch).length : ℚ)
    if ratio > 3/10 then 80 * ratio else 0
  else if (wordsLonger2 target).Nonempty ∧ (wordsLonger2 mtch).Nonempty then
    let ratio := setRatio (wordsLonger2 target) (wordsLonger2 mtch)
    if ratio > 3/10 then 60 * ratio else 0
  else 0

/-!
## Batch analyzer
From `src/countries/us/us_analyzer.py`.
-/

/-- The fields of a `WorkRecord` relevant to batch analysis. -/
structure WorkRecordL where
  title : String
  author_name : String
  status : String
  notes : String

/-- The error record built by `analyze_batch` when the analysis of one
item raises. -/
def errorRecord (title author errMsg : String) : WorkRecordL :=
  { title := title, author_name := author, status := "Unknown",
    notes := "Analysis failed: " ++ errMsg }

/-- Embedding of `USAnalyzer.analyze_batch`: run the per-item analysis (modelled as a
fallible function) on every `(title, author)` pair in order; an exception
becomes an error record in the slot of that item instead of aborting. -/
def analyzeBatch (analyzeWork : String → String → Except String WorkRecordL)
    (works : List (String × String)) : List WorkRecordL :=
  works.map (fun w =>
    match analyzeWork w.1 w.2 with
    | Except.ok r => r
    | Except.error e => errorRecord w.1 w.2 e)

/-!
## Theorems
-/

theorem append_eq_empty_iff (s t : String) : s ++ t = "" ↔ s = "" ∧ t = "" := by
  constructor
  · intro h
    have hd : s.data ++ t.data = [] := by
      have h2 := congrArg String.data h
      simpa [String.data_append] using h2
    rcases List.append_eq_nil.mp hd with ⟨h1, h2⟩
    constructor
    · apply String.ext
      simpa using h1
    · apply String.ext
      simpa using h2
  · rintro ⟨rfl, rfl⟩
    rfl

/-- Claim C1 (code_bug): `_validate_years` would reject a publication year
of 1200 (outside `[1400, current_year + 5]`), but
`calculate_copyright_status` never invokes it: the same input produces a
full "Public Domain" verdict instead of an error. -/
theorem validation_not_enforced (cy : Int) :
    validateYears cy (some 1200) none = false ∧
    calculateCopyrightStatus cy (some 1200) none "individual" =
      ("Public Domain", some 1923, "Published before 1923. In public domain since 1923.") := by
  constructor
  · simp [validateYears]
  · rfl

/-- Claim C2 (counterexample): publication year 0 is strictly below 1923,
yet the calculator returns status "Unknown" (Python falsiness of `0`), not
"Public Domain" with year 1923. -/
theorem pre1923_zero_year_counterexample :
    (0 : Int) < 1923 ∧
    calculateCopyrightStatus 2025 (some 0) none "individual" =
      ("Unknown", none, "Publication year unknown") :=
  ⟨by decide, rfl⟩

/-- Claim C2 (amended): for every NONZERO publication year below 1923, and
any work type, death year and current year, the calculator returns
"Public Domain" with public-domain year exactly 1923. -/
theorem pre1923_public_domain (cy y : Int) (dy : Option Int) (wt : String)
    (h0 : y ≠ 0) (h1 : y < 1923) :
    calculateCopyrightStatus cy (some y) dy wt =
      ("Public Domain", some 1923, "Published before 1923. In public domain since 1923.") := by
  simp [calculateCopyrightStatus, optTruthy, h0, h1]

/-- Witness for the amended claim C2 at publication year 1900. -/
theorem pre1923_public_domain_witness :
    ((1900 : Int) ≠ 0 ∧ (1900 : Int) < 1923) ∧
    calculateCopyrightStatus 2025 (some 1900) none "individual" =
      ("Public Domain", some 1923, "Published before 1923. In public domain since 1923.") :=
  ⟨by decide, pre1923_public_domain 2025 1900 none "individual" (by decide) (by decide)⟩

/-- Claim C8: the calculator returns status "Unknown" exactly when the
public-domain year is `none`; the status is always one of the three
documented values, and the explanation string is never empty. -/
theorem status_unknown_iff_no_pd_year (cy : Int) (pub dy : Option Int) (wt : String) :
    ((calculateCopyrightStatus cy pub dy wt).1 = "Unknown" ↔
      (calculateCopyrightStatus cy pub dy wt).2.1 = none) ∧
    ((calculateCopyrightStatus cy pub dy wt).1 = "Unknown" ∨
      (calculateCopyrightStatus cy pub dy wt).1 = "Public Domain" ∨
      (calculateCopyrightStatus cy pub dy wt).1 = "Under Copyright") ∧
    (calculateCopyrightStatus cy pub dy wt).2.2 ≠ "" := by
  simp only [calculateCopyrightStatus]
  split_ifs <;> refine ⟨?_, ?_, ?_⟩ <;> simp [append_eq_empty_iff] <;>
    exact fun h => absurd h (by decide)

theorem setRatio_comm (w1 w2 : Finset String) : setRatio w1 w2 = setRatio w2 w1 := by
  rw [setRatio, setRatio, Finset.inter_comm, Finset.union_comm]

theorem setRatio_nonneg (w1 w2 : Finset String) : 0 ≤ setRatio w1 w2 := by
  rw [setRatio]
  positivity

theorem titleSim_comm (t1 t2 : String) : titleSim t1 t2 = titleSim t2 t1 := by
  simp only [titleSim]
  by_cases h1 : normalizeText t1 = ""
  · have hL : ¬(normalizeText t1 ≠ "" ∧ normalizeText t2 ≠ "") := fun h => h.1 h1
    have hR : ¬(normalizeText t2 ≠ "" ∧ normalizeText t1 ≠ "") := fun h => h.2 h1
    rw [if_neg hL, if_neg hR]
  · by_cases h2 : normalizeText t2 = ""
    · have hL : ¬(normalizeText t1 ≠ "" ∧ normalizeText t2 ≠ "") := fun h => h.2 h2
      have hR : ¬(normalizeText t2 ≠ "" ∧ normalizeText t1 ≠ "") := fun h => h.1 h2
      rw [if_neg hL, if_neg hR]
    · have hL : normalizeText t1 ≠ "" ∧ normalizeText t2 ≠ "" := ⟨h1, h2⟩
      have hR : normalizeText t2 ≠ "" ∧ normalizeText t1 ≠ "" := ⟨h2, h1⟩
      rw [if_pos hL, if_pos hR]
      by_cases hB : normalizeText t1 = normalizeText t2
      · rw [if_pos hB, if_pos hB.symm]
      · have hB2 : ¬normalizeText t2 = normalizeText t1 := fun h => hB h.symm
        rw [if_neg hB, if_neg hB2]
        by_cases hC : (strIn (normalizeText t1) (normalizeText t2) ||
            strIn (normalizeText t2) (normalizeText t1)) = true
        · have hC2 : (strIn (normalizeText t2) (normalizeText t1) ||
              strIn (normalizeText t1) (normalizeText t2)) = true := by
            rwa [Bool.or_comm] at hC
          rw [if_pos hC, if_pos hC2]
        · have hC2 : ¬(strIn (normalizeText t2) (normalizeText t1) ||
              strIn (normalizeText t1) (normalizeText t2)) = true :=
            fun h => hC (by rwa [Bool.or_comm] at h)
          rw [if_neg hC, if_neg hC2]
          by_cases hD : ((pyWords (normalizeText t1)).toFinset.Nonempty ∧
              (pyWords (normalizeText t2)).toFinset.Nonempty)
          · have hD2 : ((pyWords (normalizeText t2)).toFinset.Nonempty ∧
                (pyWords (normalizeText t1)).toFinset.Nonempty) := ⟨hD.2, hD.1⟩
            rw [if_pos hD, if_pos hD2, setRatio_comm]
          · have hD2 : ¬((pyWords (normalizeText t2)).toFinset.Nonempty ∧
                (pyWords (normalizeText t1)).toFinset.Nonempty) := fun h => hD ⟨h.2, h.1⟩
            rw [if_neg hD, if_neg hD2]

theorem authorSim_comm (a1 a2 : String) : authorSim a1 a2 = authorSim a2 a1 := by
  simp only [authorSim]
  by_cases h1 : normalizeText a1 = ""
  · by_cases h2 : normalizeText a2 = ""
    · have hL : ¬(normalizeText a1 ≠ "" ∧ normalizeText a2 ≠ "") := fun h => h.1 h1
      have hR : ¬(normalizeText a2 ≠ "" ∧ normalizeText a1 ≠ "") := fun h => h.1 h2
      have hL2 : normalizeText a1 = "" ∧ normalizeText a2 = "" := ⟨h1, h2⟩
      have hR2 : normalizeText a2 = "" ∧ normalizeText a1 = "" := ⟨h2, h1⟩
      rw [if_neg hL, if_neg hR, if_pos hL2, if_pos hR2]
    · have hL : ¬(normalizeText a1 ≠ "" ∧ normalizeText a2 ≠ "") := fun h => h.1 h1
      have hR : ¬(normalizeText a2 ≠ "" ∧ normalizeText a1 ≠ "") := fun h => h.2 h1
      have hL2 : ¬(normalizeText a1 = "" ∧ normalizeText a2 = "") := fun h => h2 h.2
      have hR2 : ¬(normalizeText a2 = "" ∧ normalizeText a1 = "") := fun h => h2 h.1
      rw [if_neg hL, if_neg hR, if_neg hL2, if_neg hR2]
  · by_cases h2 : normalizeText a2 = ""
    · have hL : ¬(normalizeText a1 ≠ "" ∧ normalizeText a2 ≠ "") := fun h => h.2 h2
      have hR : ¬(normalizeText a2 ≠ "" ∧ normalizeText a1 ≠ "") := fun h => h.1 h2
      have hL2 : ¬(normalizeText a1 = "" ∧ normalizeText a2 = "") := fun h => h1 h.1
      have hR2 : ¬(normalizeText a2 = "" ∧ normalizeText a1 = "") := fun h => h1 h.2
      rw [if_neg hL, if_neg hR, if_neg hL2, if_neg hR2]
    · have hL : normalizeText a1 ≠ "" ∧ normalizeText a2 ≠ "" := ⟨h1, h2⟩
      have hR : normalizeText a2 ≠ "" ∧ normalizeText a1 ≠ "" := ⟨h2, h1⟩
      rw [if_pos hL, if_pos hR]
      by_cases hB : normalizeText a1 = normalizeText a2
      · rw [if_pos hB, if_pos hB.symm]
      · have hB2 : ¬normalizeText a2 = normalizeText a1 := fun h => hB h.symm
        rw [if_neg hB, if_neg hB2]
        by_cases hC : (strIn (normalizeText a1) (normalizeText a2) ||
            strIn (normalizeText a2) (normalizeText a1)) = true
        · have hC2 : (strIn (normalizeText a2) (normalizeText a1) ||
              strIn (normalizeText a1) (normalizeText a2)) = true := by
            rwa [Bool.or_comm] at hC
          rw [if_pos hC, if_pos hC2]
        · have hC2 : ¬(strIn (normalizeText a2) (normalizeText a1) ||
              strIn (normalizeText a1) (normalizeText a2)) = true :=
            fun h => hC (by rwa [Bool.or_comm] at h)
          rw [if_neg hC, if_neg hC2]

theorem yearSim_comm (y1 y2 : Option Int) : yearSim y1 y2 = yearSim y2 y1 := by
  simp only [yearSim]
  by_cases hA : (optTruthy y1 && optTruthy y2) = true
  · have hA2 : (optTruthy y2 && optTruthy y1) = true := by rwa [Bool.and_comm] at hA
    rw [if_pos hA, if_pos hA2]
    by_cases hB : y1.getD 0 = y2.getD 0
    · rw [if_pos hB, if_pos hB.symm]
    · have hB2 : ¬y2.getD 0 = y1.getD 0 := fun h => hB h.symm
      rw [if_neg hB, if_neg hB2]
      by_cases hC : (y1.getD 0 - y2.getD 0).natAbs ≤ 2
      · have hC2 : (y2.getD 0 - y1.getD 0).natAbs ≤ 2 := by omega
        rw [if_pos hC, if_pos hC2]
      · have hC2 : ¬(y2.getD 0 - y1.getD 0).natAbs ≤ 2 := by omega
        rw [if_neg hC, if_neg hC2]
  · have hA2 : ¬(optTruthy y2 && optTruthy y1) = true :=
      fun h => hA (by rwa [Bool.and_comm] at h)
    rw [if_neg hA, if_neg hA2]
    by_cases hD : (!optTruthy y1 && !optTruthy y2) = true
    · have hD2 : (!optTruthy y2 && !optTruthy y1) = true := by rwa [Bool.and_comm] at hD
      rw [if_pos hD, if_pos hD2]
    · have hD2 : ¬(!optTruthy y2 && !optTruthy y1) = true :=
        fun h => hD (by rwa [Bool.and_comm] at h)
      rw [if_neg hD, if_neg hD2]

theorem titleSim_nonneg (t1 t2 : String) : 0 ≤ titleSim t1 t2 := by
  simp only [titleSim]
  split_ifs
  all_goals first
    | exact mul_nonneg (by norm_num) (setRatio_nonneg _ _)
    | norm_num

theorem authorSim_nonneg (a1 a2 : String) : 0 ≤ authorSim a1 a2 := by
  simp only [authorSim]
  split_ifs <;> norm_num

theorem yearSim_nonneg (y1 y2 : Option Int) : 0 ≤ yearSim y1 y2 := by
  simp only [yearSim]
  split_ifs <;> norm_num

/-- Claim C9: the dedup similarity is symmetric in its two work triples
and always lies in the interval `[0, 1]`. -/
theorem work_similarity_symm_bounded (t1 a1 : String) (y1 : Option Int)
    (t2 a2 : String) (y2 : Option Int) :
    workSimilarity t1 a1 y1 t2 a2 y2 = workSimilarity t2 a2 y2 t1 a1 y1 ∧
    0 ≤ workSimilarity t1 a1 y1 t2 a2 y2 ∧ workSimilarity t1 a1 y1 t2 a2 y2 ≤ 1 := by
  refine ⟨?_, ?_, ?_⟩
  · rw [workSimilarity, workSimilarity, titleSim_comm, authorSim_comm, yearSim_comm]
  · exact le_min
      (add_nonneg (add_nonneg (titleSim_nonneg t1 t2) (authorSim_nonneg a1 a2))
        (yearSim_nonneg y1 y2)) zero_le_one
  · exact min_le_right _ _

/-- Claim C3 (counterexample): the pair `("dog", "smith", 1950)` versus
`("the dog", "smith", no year)` scores exactly 0.7 (containment 0.4 +
exact author 0.3 + no year credit), yet `find_existing_work` does NOT
merge it: the threshold comparison is strict (`score > 0.7`). -/
theorem dedup_threshold_counterexample :
    workSimilarity "dog" "smith" (some 1950) "the dog" "smith" none = 7/10 ∧
    findExistingWork ⟨"dog", "smith", some 1950⟩ [⟨"the dog", "smith", none⟩] = none := by
  have ht : titleSim "dog" "the dog" = 4/10 := rfl
  have ha : authorSim "smith" "smith" = 3/10 := rfl
  have hy : yearSim (some 1950) none = 0 := rfl
  have hw : workSimilarity "dog" "smith" (some 1950) "the dog" "smith" none = 7/10 := by
    rw [workSimilarity, ht, ha, hy]
    norm_num
  refine ⟨hw, ?_⟩
  have hsim : workSimW ⟨"dog", "smith", some 1950⟩ ⟨"the dog", "smith", none⟩ = 7/10 := hw
  rw [findExistingWork]
  simp only [bestLoop]
  rw [if_neg]
  rw [hsim]
  norm_num

theorem bestLoop_isSome_mono (w : CachedWork) :
    ∀ (cs : List CachedWork) (c0 : CachedWork) (bs : ℚ),
    (bestLoop w cs (some c0, bs)).1.isSome = true := by
  intro cs
  induction cs with
  | nil => intro c0 bs; rfl
  | cons c cs ih =>
    intro c0 bs
    simp only [bestLoop]
    split_ifs with h
    · exact ih c (workSimW w c)
    · exact ih c0 bs

theorem bestLoop_isSome_iff (w : CachedWork) :
    ∀ (cs : List CachedWork) (best : Option CachedWork) (bs : ℚ),
    (bestLoop w cs (best, bs)).1.isSome = true ↔
      best.isSome = true ∨ ∃ c ∈ cs, workSimW w c > bs ∧ workSimW w c > 7/10 := by
  intro cs
  induction cs with
  | nil => intro best bs; simp [bestLoop]
  | cons c cs ih =>
    intro best bs
    simp only [bestLoop]
    split_ifs with h
    · constructor
      · intro _
        exact Or.inr ⟨c, by simp, h⟩
      · intro _
        exact bestLoop_isSome_mono w cs c (workSimW w c)
    · rw [ih best bs]
      constructor
      · rintro (hb | ⟨x, hx, hgt⟩)
        · exact Or.inl hb
        · exact Or.inr ⟨x, List.mem_cons_of_mem _ hx, hgt⟩
      · rintro (hb | ⟨x, hx, hgt⟩)
        · exact Or.inl hb
        · rcases List.mem_cons.mp hx with rfl | hx'
          · exact absurd hgt h
          · exact Or.inr ⟨x, hx', hgt⟩

/-- Claim C3 (amended): in the fuzzy dedup path a new record is merged
into an existing one exactly when the similarity score is STRICTLY
greater than 0.7; a pair scoring exactly 0.7 is kept as two records. -/
theorem dedup_merges_iff_strictly_above_threshold (w : CachedWork) (pool : List CachedWork) :
    (findExistingWork w pool).isSome = true ↔ ∃ c ∈ pool, workSimW w c > 7/10 := by
  rw [findExistingWork, bestLoop_isSome_iff]
  simp only [Option.isSome_none, Bool.false_eq_true, false_or]
  constructor
  · rintro ⟨c, hc, _, hgt⟩
    exact ⟨c, hc, hgt⟩
  · rintro ⟨c, hc, hgt⟩
    exact ⟨c, hc, by linarith, hgt⟩

theorem sourceWeight_ge (s : String) : (1:ℚ)/5 ≤ sourceWeight s := by
  unfold sourceWeight
  split_ifs <;> norm_num

/-- Claim C4: for every non-empty source list the merged confidence is the
weighted mean `sum(c*w)/sum(w)`; the three known source weights sum to 1;
unknown sources weigh 0.2; and whenever two sources have unequal weights
and the confidences differ, the result differs from the plain average. -/
theorem confidence_weighted_mean (srcs : List (String × ℚ)) (hne : srcs ≠ []) :
    confidenceScore srcs =
      ((srcs.map (fun p => p.2 * sourceWeight p.1)).sum) /
        ((srcs.map (fun p => sourceWeight p.1)).sum) ∧
    sourceWeight "loc" + sourceWeight "hathitrust" + sourceWeight "musicbrainz" = 1 ∧
    (∀ s : String, s ≠ "loc" → s ≠ "hathitrust" → s ≠ "musicbrainz" → sourceWeight s = 1/5) ∧
    (∀ s1 s2 : String, ∀ c1 c2 : ℚ, sourceWeight s1 ≠ sourceWeight s2 → c1 ≠ c2 →
      confidenceScore [(s1, c1), (s2, c2)] ≠ (c1 + c2) / 2) := by
  have hw1 : sourceWeight "loc" = 4/10 := rfl
  have hw2 : sourceWeight "hathitrust" = 3/10 := rfl
  have hw3 : sourceWeight "musicbrainz" = 3/10 := rfl
  refine ⟨?_, by rw [hw1, hw2, hw3]; norm_num, ?_, ?_⟩
  · have hpos : 0 < (srcs.map (fun p => sourceWeight p.1)).sum := by
      apply List.sum_pos
      · intro x hx
        rcases List.mem_map.mp hx with ⟨p, _, rfl⟩
        linarith [sourceWeight_ge p.1]
      · intro hmap
        exact hne (List.map_eq_nil_iff.mp hmap)
    simp only [confidenceScore]
    rw [if_neg hne, if_pos hpos]
  · intro s hs1 hs2 hs3
    simp only [sourceWeight]
    rw [if_neg hs1, if_neg hs2, if_neg hs3]
    norm_num
  · intro s1 s2 c1 c2 hwne hcne heq
    have h1 : (1:ℚ)/5 ≤ sourceWeight s1 := sourceWeight_ge s1
    have h2 : (1:ℚ)/5 ≤ sourceWeight s2 := sourceWeight_ge s2
    have hpos : sourceWeight s1 + sourceWeight s2 > 0 := by linarith
    have hs : confidenceScore [(s1, c1), (s2, c2)] =
        (c1 * sourceWeight s1 + c2 * sourceWeight s2) /
          (sourceWeight s1 + sourceWeight s2) := by
      have hx : ([(s1, c1), (s2, c2)] : List (String × ℚ)) ≠ [] := by simp
      simp only [confidenceScore, List.map_cons, List.map_nil, List.sum_cons, List.sum_nil,
        add_zero]
      rw [if_neg hx, if_pos hpos]
    rw [hs] at heq
    have key : (c1 * sourceWeight s1 + c2 * sourceWeight s2) * 2 =
        (c1 + c2) * (sourceWeight s1 + sourceWeight s2) := by
      field_simp at heq
      linarith [heq]
    have h0 : (c1 - c2) * (sourceWeight s1 - sourceWeight s2) = 0 := by
      linear_combination key
    rcases mul_eq_zero.mp h0 with h | h
    · exact hcne (by linarith)
    · exact hwne (by linarith)

/-- Witness for claim C4: a singleton source list is non-empty and the
weighted mean differs from the plain average at
`[("loc", 1), ("hathitrust", 0)]`. -/
theorem confidence_weighted_mean_witness :
    confidenceScore [("loc", (1:ℚ))] =
      ((([("loc", (1:ℚ))]).map (fun p => p.2 * sourceWeight p.1)).sum) /
        ((([("loc", (1:ℚ))]).map (fun p => sourceWeight p.1)).sum) ∧
    confidenceScore [("loc", (1:ℚ)), ("hathitrust", 0)] ≠ (1 + 0) / 2 := by
  refine ⟨(confidence_weighted_mean [("loc", (1:ℚ))] (by simp)).1, ?_⟩
  exact (confidence_weighted_mean [("loc", (1:ℚ))] (by simp)).2.2.2 "loc" "hathitrust" 1 0
    (by rw [show sourceWeight "loc" = 4/10 from rfl,
          show sourceWeight "hathitrust" = 3/10 from rfl]
        norm_num)
    (by norm_num)

set_option maxHeartbeats 800000 in
theorem scoreTitleRelevance_nonneg (t m : String) : 0 ≤ scoreTitleRelevance t m := by
  simp only [scoreTitleRelevance]
  split_ifs <;> positivity

theorem le_foldl_max (l : List ℚ) (a : ℚ) : a ≤ l.foldl max a := by
  induction l generalizing a with
  | nil => exact le_refl a
  | cons b t ih => exact le_trans (le_max_left a b) (ih (max a b))

theorem scoreAuthorRelevance_nonneg (t : String) (auths : List String) :
    0 ≤ scoreAuthorRelevance t auths := by
  simp only [scoreAuthorRelevance]
  split_ifs
  · norm_num
  · norm_num
  · exact le_foldl_max _ 0

/-- Claim C5: with a specific (non-generic, length > 2) target author the
relevance score is 0 exactly when the title sub-score is below 20 AND the
author sub-score is below 15; without a specific author it is 0 exactly
when the title sub-score is below 20. -/
theorem relevance_minimum_gate (m : LocMatch) (tt ta : String) :
    (specificAuthor ta = true →
      (calculateRelevanceScore m tt ta = 0 ↔
        titleSubScore m tt < 20 ∧ authorSubScore m ta < 15)) ∧
    (specificAuthor ta = false →
      (calculateRelevanceScore m tt ta = 0 ↔ titleSubScore m tt < 20)) := by
  have hts : 0 ≤ titleSubScore m tt := scoreTitleRelevance_nonneg _ _
  have has : 0 ≤ authorSubScore m ta := scoreAuthorRelevance_nonneg _ _
  have hbonus : (0:ℚ) ≤ (if optTruthy m.pubYear then 5 else 0) := by
    split_ifs <;> norm_num
  constructor
  · intro hsp
    simp only [calculateRelevanceScore, hsp, if_true]
    by_cases hg : titleSubScore m tt < 20 ∧ authorSubScore m ta < 15
    · rw [if_pos hg]
      exact iff_of_true rfl hg
    · rw [if_neg hg]
      have hsum : titleSubScore m tt + authorSubScore m ta +
          (if optTruthy m.pubYear then 5 else 0) ≠ 0 := by
        rcases not_and_or.mp hg with h | h
        · push_neg at h
          intro h0
          linarith
        · push_neg at h
          intro h0
          linarith
      exact iff_of_false hsum hg
  · intro hsp
    simp only [calculateRelevanceScore, hsp, Bool.false_eq_true, if_false]
    by_cases hg : titleSubScore m tt < 20
    · rw [if_pos hg]
      exact iff_of_true rfl hg
    · rw [if_neg hg]
      push_neg at hg
      have hsum : titleSubScore m tt + authorSubScore m ta +
          (if optTruthy m.pubYear then 5 else 0) ≠ 0 := by
        intro h0
        linarith
      exact iff_of_false hsum (by linarith)

/-- Witness for claim C5: the author "abcd" is specific, and a candidate
with empty title and no authors scores 0 under the gate. -/
theorem relevance_minimum_gate_witness :
    specificAuthor "abcd" = true ∧
    calculateRelevanceScore ⟨"", [], none⟩ "" "abcd" = 0 := by
  refine ⟨by decide, ?_⟩
  apply ((relevance_minimum_gate ⟨"", [], none⟩ "" "abcd").1 (by decide)).mpr
  constructor
  · rw [show titleSubScore ⟨"", [], none⟩ "" = 0 from rfl]
    norm_num
  · rw [show authorSubScore ⟨"", [], none⟩ "abcd" = 0 from rfl]
    norm_num

/-- Claim C7: `analyze_batch` returns one result per input in order; a
slot of a successful item carries its own record, and the slot of a
failing item carries an "Unknown" record with the failure note while the
rest of the batch is unaffected. -/
theorem analyze_batch_isolates_failures (f : String → String → Except String WorkRecordL)
    (works : List (String × String)) :
    (analyzeBatch f works).length = works.length ∧
    ∀ (i : Nat) (t a : String), works[i]? = some (t, a) →
      ((∀ r, f t a = Except.ok r → (analyzeBatch f works)[i]? = some r) ∧
       (∀ e, f t a = Except.error e → ∃ rr : WorkRecordL, (analyzeBatch f works)[i]? = some rr ∧
          rr.status = "Unknown" ∧ rr.notes = "Analysis failed: " ++ e ∧
          rr.title = t ∧ rr.author_name = a)) := by
  refine ⟨by simp [analyzeBatch], ?_⟩
  intro i t a hw
  have hmap : (analyzeBatch f works)[i]? = some (match f t a with
      | Except.ok r => r
      | Except.error e => errorRecord t a e) := by
    simp [analyzeBatch, List.getElem?_map, hw]
  constructor
  · intro r hr
    rw [hmap, hr]
  · intro e he
    refine ⟨errorRecord t a e, ?_, rfl, rfl, rfl, rfl⟩
    rw [hmap, he]

/-- Witness for claim C7: a batch whose only item always fails yields a
slot holding the "Unknown" error record. -/
theorem analyze_batch_isolates_failures_witness :
    ∃ rr : WorkRecordL,
      (analyzeBatch (fun _ _ => Except.error "boom") [("x", "y")])[0]? = some rr ∧
      rr.status = "Unknown" ∧ rr.notes = "Analysis failed: " ++ "boom" ∧
      rr.title = "x" ∧ rr.author_name = "y" :=
  ((analyze_batch_isolates_failures (fun _ _ => Except.error "boom") [("x", "y")]).2
    0 "x" "y" rfl).2 "boom" rfl

/-- Claim C6 (counterexample): on target "big cat!" and candidate
"big dog cat" the title scorer of the code returns 0, while the fully
normalized scoring of the claim returns 40: the word-overlap branch of the
code splits the RAW strings, so the token "cat!" (punctuation kept) fails
to match "cat" and the overlap ratio drops to 1/4, below the 0.3 cutoff. -/
theorem title_score_normalization_counterexample :
    scoreTitleRelevance "big cat!" "big dog cat" = 0 ∧
    scoreTitleClaim "big cat!" "big dog cat" = 40 := by
  constructor
  · simp only [scoreTitleRelevance]
    rw [if_neg (show ¬("big cat!" = "" ∨ "big dog cat" = "") by decide)]
    rw [if_neg (show ¬(cleanTitleLoc "big cat!" = cleanTitleLoc "big dog cat") by decide)]
    rw [if_neg (show ¬((strIn (cleanTitleLoc "big cat!") (cleanTitleLoc "big dog cat") ||
        strIn (cleanTitleLoc "big dog cat") (cleanTitleLoc "big cat!")) = true) by decide)]
    rw [if_pos (show ((wordsLonger2 "big cat!").Nonempty ∧
        (wordsLonger2 "big dog cat").Nonempty) from
      ⟨⟨"big", by decide⟩, ⟨"big", by decide⟩⟩)]
    rw [show (wordsLonger2 "big cat!" ∪ wordsLonger2 "big dog cat").card = 4 from by decide]
    rw [show (wordsLonger2 "big cat!" ∩ wordsLonger2 "big dog cat").card = 1 from by decide]
    norm_num
  · simp only [scoreTitleClaim]
    rw [if_neg (show ¬(normalizeText "big cat!" = normalizeText "big dog cat") by decide)]
    rw [if_neg (show ¬((strIn (normalizeText "big cat!") (normalizeText "big dog cat") ||
        strIn (normalizeText "big dog cat") (normalizeText "big cat!")) = true) by decide)]
    have hsr : setRatio
        (((pyWords (normalizeText "big cat!")).filter (fun w => w.length > 2)).toFinset)
        (((pyWords (normalizeText "big dog cat")).filter (fun w => w.length > 2)).toFinset)
        = 2/3 := by
      rw [setRatio]
      rw [show ((((pyWords (normalizeText "big cat!")).filter
            (fun w => w.length > 2)).toFinset ∩
          ((pyWords (normalizeText "big dog cat")).filter
            (fun w => w.length > 2)).toFinset).card) = 2 from by decide]
      rw [show ((((pyWords (normalizeText "big cat!")).filter
            (fun w => w.length > 2)).toFinset ∪
          ((pyWords (normalizeText "big dog cat")).filter
            (fun w => w.length > 2)).toFinset).card) = 3 from by decide]
      norm_num
    rw [hsr]
    rw [if_pos (show (2:ℚ)/3 > 3/10 by norm_num)]
    norm_num

/-- Claim C6 (amended): the title sub-score of the code agrees everywhere with
the amended description `scoreTitleAmended` (cleaning without lower-casing
or whitespace collapsing on the exact/containment branches, raw-string
tokens in the overlap branch, guarded divisions dropped). -/
theorem title_score_amended (t m : String) :
    scoreTitleRelevance t m = scoreTitleAmended t m := by
  simp only [scoreTitleRelevance, scoreTitleAmended]
  by_cases h0 : t = "" ∨ m = ""
  · rw [if_pos h0, if_pos h0]
  · rw [if_neg h0, if_neg h0]
    by_cases h1 : cleanTitleLoc t = cleanTitleLoc m
    · rw [if_pos h1, if_pos h1]
    · rw [if_neg h1, if_neg h1]
      by_cases h2 : (strIn (cleanTitleLoc t) (cleanTitleLoc m) ||
          strIn (cleanTitleLoc m) (cleanTitleLoc t)) = true
      · rw [if_pos h2, if_pos h2]
        by_cases hmx : max (cleanTitleLoc t).length (cleanTitleLoc m).length > 0
        · rw [if_pos hmx]
          push_cast
          rfl
        · rw [if_neg hmx]
          have ha : (cleanTitleLoc t).length = 0 := by omega
          have hb : (cleanTitleLoc m).length = 0 := by omega
          rw [ha, hb]
          norm_num
      · rw [if_neg h2, if_neg h2]
        by_cases h3 : ((wordsLonger2 t).Nonempty ∧ (wordsLonger2 m).Nonempty)
        · rw [if_pos h3, if_pos h3]
          by_cases htot : (wordsLonger2 t ∪ wordsLonger2 m).card > 0
          · rw [if_pos htot]
            simp only [setRatio]
          · rw [if_neg htot]
            have hc0 : (wordsLonger2 t ∪ wordsLonger2 m).card = 0 := by omega
            simp only [setRatio]
            rw [hc0]
            norm_num
        · rw [if_neg h3, if_neg h3]

theorem charEq_one (a : Char) : (a = '1') ↔ a.toNat = 49 := by
  constructor
  · rintro rfl
    rfl
  · intro h
    apply Char.ext
    apply UInt32.toNat.inj
    exact h

theorem charEq_two (a : Char) : (a = '2') ↔ a.toNat = 50 := by
  constructor
  · rintro rfl
    rfl
  · intro h
    apply Char.ext
    apply UInt32.toNat.inj
    exact h

theorem charEq_zero (b : Char) : (b = '0') ↔ b.toNat = 48 := by
  constructor
  · rintro rfl
    rfl
  · intro h
    apply Char.ext
    apply UInt32.toNat.inj
    exact h

theorem charLe_five (b : Char) : ('5' ≤ b) ↔ 53 ≤ b.toNat := Iff.rfl

theorem charLe_nine (b : Char) : (b ≤ '9') ↔ b.toNat ≤ 57 := Iff.rfl

theorem isDigit_toNat (c : Char) : c.isDigit = true ↔ 48 ≤ c.toNat ∧ c.toNat ≤ 57 := by
  simp only [Char.isDigit, Bool.and_eq_true, decide_eq_true_eq, ge_iff_le]
  constructor
  · rintro ⟨h1, h2⟩
    exact ⟨h1, h2⟩
  · rintro ⟨h1, h2⟩
    exact ⟨h1, h2⟩

theorem isYearTok_iff (a b c d : Char) :
    isYearTok a b c d = true ↔
      (a.isDigit = true ∧ b.isDigit = true ∧ c.isDigit = true ∧ d.isDigit = true ∧
       1500 ≤ tokVal a b c d ∧ tokVal a b c d ≤ 2099) := by
  simp only [isYearTok, tokVal, digitVal, Bool.or_eq_true, Bool.and_eq_true,
    decide_eq_true_eq, beq_iff_eq, charEq_one, charEq_two, charEq_zero, charLe_five,
    charLe_nine, isDigit_toNat]
  omega

theorem windowTok_short (l : List Char) (i : Nat) (h : l.length < 4) :
    windowTok l i = false := by
  simp only [windowTok]
  split
  · rename_i a b c d rest heq
    exfalso
    have hlen := congrArg List.length heq
    simp [List.length_drop] at hlen
    omega
  · rfl

theorem windowTok_succ (x : Char) (t : List Char) (j : Nat) :
    windowTok (x :: t) (j + 1) = windowTok t j := by
  simp only [windowTok, List.drop_succ_cons]

theorem beforeBoundary_succ (prev : Option Char) (x : Char) (t : List Char) (j : Nat) :
    beforeBoundary prev (x :: t) (j + 1) = beforeBoundary (some x) t j := by
  cases j with
  | zero => simp only [beforeBoundary, List.getElem?_cons_zero, boundaryB]
  | succ k => simp only [beforeBoundary, List.getElem?_cons_succ]

theorem findYearAux_isSome_iff : ∀ (l : List Char) (prev : Option Char),
    (findYearAux prev l).isSome = true ↔
      ∃ i, windowTok l i = true ∧ beforeBoundary prev l i = true := by
  intro l
  induction l with
  | nil =>
    intro prev
    simp only [findYearAux, Option.isSome_none, Bool.false_eq_true, false_iff]
    rintro ⟨i, hw, _⟩
    rw [windowTok_short [] i (by simp)] at hw
    exact absurd hw (by simp)
  | cons x xs ih =>
    intro prev
    rcases xs with _ | ⟨b, _ | ⟨c, _ | ⟨d, rest⟩⟩⟩
    · simp only [findYearAux, Option.isSome_none, Bool.false_eq_true, false_iff]
      rintro ⟨i, hw, _⟩
      rw [windowTok_short _ i (by simp)] at hw
      exact absurd hw (by simp)
    · simp only [findYearAux, Option.isSome_none, Bool.false_eq_true, false_iff]
      rintro ⟨i, hw, _⟩
      rw [windowTok_short _ i (by simp)] at hw
      exact absurd hw (by simp)
    · simp only [findYearAux, Option.isSome_none, Bool.false_eq_true, false_iff]
      rintro ⟨i, hw, _⟩
      rw [windowTok_short _ i (by simp)] at hw
      exact absurd hw (by simp)
    · simp only [findYearAux]
      by_cases hc : (boundaryB prev && isYearTok x b c d && headBoundary rest) = true
      · rw [if_pos hc]
        simp only [Option.isSome_some, true_iff]
        obtain ⟨⟨hA, hB⟩, hC⟩ : (boundaryB prev = true ∧ isYearTok x b c d = true) ∧
            headBoundary rest = true := by simpa [Bool.and_eq_true] using hc
        refine ⟨0, ?_, hA⟩
        show (isYearTok x b c d && headBoundary rest) = true
        rw [hB, hC]
        rfl
      · rw [if_neg hc]
        rw [ih (some x)]
        constructor
        · rintro ⟨j, hw, hb⟩
          refine ⟨j + 1, ?_, ?_⟩
          · rwa [windowTok_succ]
          · rwa [beforeBoundary_succ]
        · rintro ⟨i, hw, hb⟩
          cases i with
          | zero =>
            exfalso
            apply hc
            have hw0 : (isYearTok x b c d && headBoundary rest) = true := hw
            obtain ⟨hB, hC⟩ : isYearTok x b c d = true ∧ headBoundary rest = true := by
              simpa [Bool.and_eq_true] using hw0
            have hA : boundaryB prev = true := hb
            rw [hA, hB, hC]
            rfl
          | succ j =>
            refine ⟨j, ?_, ?_⟩
            · rwa [windowTok_succ] at hw
            · rwa [beforeBoundary_succ] at hb

theorem findYearAux_some : ∀ (l : List Char) (prev : Option Char) (n : Nat),
    findYearAux prev l = some n →
    ∃ a b c d, isYearTok a b c d = true ∧ n = tokVal a b c d := by
  intro l
  induction l with
  | nil =>
    intro prev n h
    simp [findYearAux] at h
  | cons x xs ih =>
    intro prev n h
    rcases xs with _ | ⟨b, _ | ⟨c, _ | ⟨d, rest⟩⟩⟩
    · simp [findYearAux] at h
    · simp [findYearAux] at h
    · simp [findYearAux] at h
    · simp only [findYearAux] at h
      split_ifs at h with hc
      · obtain ⟨⟨_, hB⟩, _⟩ : (boundaryB prev = true ∧ isYearTok x b c d = true) ∧
            headBoundary rest = true := by simpa [Bool.and_eq_true] using hc
        exact ⟨x, b, c, d, hB, (Option.some.inj h).symm⟩
      · exact ih (some x) n h

/-- Claim C10: `extract_publication_year` only ever returns a year in
`[1500, 2099]`; it returns a value exactly when the string contains a
word-bounded window matching the year regex; and a 4-character window
matches that regex exactly when its characters are digits forming a number
in `[1500, 2099]`.  In particular 1400-1499 and 2100 onwards are never
extracted. -/
theorem extract_year_range_and_token (s : String) :
    (∀ n, extractPublicationYear s = some n → 1500 ≤ n ∧ n ≤ 2099) ∧
    ((extractPublicationYear s).isSome = true ↔
      ∃ i, windowTok s.data i = true ∧ beforeBoundary none s.data i = true) ∧
    (∀ a b c d : Char, isYearTok a b c d = true ↔
      (a.isDigit = true ∧ b.isDigit = true ∧ c.isDigit = true ∧ d.isDigit = true ∧
       1500 ≤ tokVal a b c d ∧ tokVal a b c d ≤ 2099)) := by
  refine ⟨?_, ?_, fun a b c d => isYearTok_iff a b c d⟩
  · intro n hn
    simp only [extractPublicationYear] at hn
    split_ifs at hn with hs
    obtain ⟨a, b, c, d, htok, rfl⟩ := findYearAux_some s.data none n hn
    have hb := (isYearTok_iff a b c d).mp htok
    exact ⟨hb.2.2.2.2.1, hb.2.2.2.2.2⟩
  · simp only [extractPublicationYear]
    split_ifs with hs
    · subst hs
      simp only [Option.isSome_none, Bool.false_eq_true, false_iff]
      rintro ⟨i, hw, _⟩
      rw [windowTok_short _ i (by simp)] at hw
      exact absurd hw (by simp)
    · exact findYearAux_isSome_iff s.data none

/-- Witness for claim C10 at the date string "in 1950". -/
theorem extract_year_range_and_token_witness :
    extractPublicationYear "in 1950" = some 1950 ∧ (1500 ≤ 1950 ∧ 1950 ≤ 2099) :=
  ⟨by decide, (extract_year_range_and_token "in 1950").1 1950 (by decide)⟩
